import Mathlib

/-!
Verification of the mizan-subnet commitment/registry core against its
natural-language specification.

Shallow embedding of:
* `IntegrityRegistry` (Solidity, embedded in src/issuer/submit/submit_epoch.ts)
* `PolicyRegistry`    (Solidity, same file)
* `EpochManager`      (src/contracts/EpochManager.sol)
* the `Solvency` and `Epoch` circom circuits (src/zk/circuits/risk_bounds.circom)
* the Merkle tree builder (TypeScript, src/issuer/submit/submit_epoch.ts)

Addresses, hashes and field elements are modelled as `Nat` (or `Int` for
circuit signals); external hash functions (Poseidon, keccak256) and the
external Groth16 verifier are universally quantified function parameters.
-/

namespace Mizan

/- ## IntegrityRegistry (Solidity embedded in submit_epoch.ts)

Storage: `epochRecords : issuer => epoch => EpochRecord`,
`latestEpoch : issuer => uint256`, `isRegisteredIssuer : issuer => bool`.
A Solidity mapping returns the all-zero struct for absent keys, and
`submitProof` tests presence via `timestamp != 0`, so records are modelled
as total maps with a zero default. -/

structure EpochRecord where
  epoch : Nat
  merkleRoot : Nat
  proofHash : Nat
  issuer : Nat
  timestamp : Nat
  verified : Bool
deriving DecidableEq, Repr

/-- The all-zero struct a Solidity mapping yields for an absent key. -/
def EpochRecord.zero : EpochRecord :=
  ⟨0, 0, 0, 0, 0, false⟩

structure RegState where
  epochRecords : Nat → Nat → EpochRecord
  latestEpoch : Nat → Nat
  isRegisteredIssuer : Nat → Bool

inductive RegEvent
  | IntegrityProven (issuer epoch merkleRoot proofHash timestamp : Nat)
  | IssuerRegistered (issuer timestamp : Nat)
  | ProofRejected (issuer epoch : Nat) (reason : String)
deriving DecidableEq, Repr

inductive SubmitError
  | NotRegisteredIssuer
  | InvalidEpoch
  | EpochAlreadySubmitted
  | ProofVerificationFailed
deriving DecidableEq, Repr

/-- Deployment state: empty mappings. -/
def RegInit : RegState :=
  ⟨fun _ _ => EpochRecord.zero, fun _ => 0, fun _ => false⟩

/-- `registerIssuer()`: no access control in the source; any caller marks
itself registered and the event is emitted unconditionally. -/
def registerIssuer (st : RegState) (sender now : Nat) : RegState × List RegEvent :=
  ({ st with
      isRegisteredIssuer := fun a => if a = sender then true else st.isRegisteredIssuer a },
   [RegEvent.IssuerRegistered sender now])

/-- `submitProof(epoch, merkleRoot, proof, publicInputs)`, statement by
statement.  `verify` is the external Groth16 verifier capability
(`_verifyProof`), `keccak` the proof-bytes hash.  An error value carries the
events emitted by the frame before the `revert` statement executed. -/
def submitProof (verify : List Nat → List Nat → Bool) (keccak : List Nat → Nat)
    (st : RegState) (sender epoch merkleRoot : Nat)
    (proof publicInputs : List Nat) (now : Nat) :
    Except (SubmitError × List RegEvent) (RegState × List RegEvent) :=
  if st.isRegisteredIssuer sender = false then
    .error (.NotRegisteredIssuer, [])
  else if epoch ≠ st.latestEpoch sender + 1 then
    .error (.InvalidEpoch, [])
  else if (st.epochRecords sender epoch).timestamp ≠ 0 then
    .error (.EpochAlreadySubmitted, [])
  else if verify proof publicInputs = false then
    .error (.ProofVerificationFailed, [RegEvent.ProofRejected sender epoch "Verification failed"])
  else
    let proofHash := keccak proof
    let record : EpochRecord := ⟨epoch, merkleRoot, proofHash, sender, now, true⟩
    .ok ({ st with
            epochRecords := fun i e =>
              if i = sender ∧ e = epoch then record else st.epochRecords i e,
            latestEpoch := fun i => if i = sender then epoch else st.latestEpoch i },
         [RegEvent.IntegrityProven sender epoch merkleRoot proofHash now])

/-- Transaction-level view of `submitProof`: an EVM `revert` rolls back all
state writes and discards the logs of the reverted frame, so an erroring
call leaves the state unchanged and records no events. -/
def submitProofTx (verify : List Nat → List Nat → Bool) (keccak : List Nat → Nat)
    (st : RegState) (sender epoch merkleRoot : Nat)
    (proof publicInputs : List Nat) (now : Nat) :
    RegState × List RegEvent × Option SubmitError :=
  match submitProof verify keccak st sender epoch merkleRoot proof publicInputs now with
  | .ok (st', evs) => (st', evs, none)
  | .error (e, _) => (st, [], some e)

/-- One state-changing transition of the registry.  Block timestamps are
positive on any real chain, hence `0 < now` on the submit step. -/
inductive RegStep : RegState → RegState → Prop
  | register (st : RegState) (sender now : Nat) :
      RegStep st (registerIssuer st sender now).1
  | submit (verify : List Nat → List Nat → Bool) (keccak : List Nat → Nat)
      (st : RegState) (sender epoch merkleRoot : Nat)
      (proof publicInputs : List Nat) (now : Nat)
      (st' : RegState) (evs : List RegEvent) (hnow : 0 < now)
      (h : submitProof verify keccak st sender epoch merkleRoot proof publicInputs now
            = .ok (st', evs)) :
      RegStep st st'

inductive RegReachable : RegState → Prop
  | init : RegReachable RegInit
  | step {st st' : RegState} : RegReachable st → RegStep st st' → RegReachable st'

/-- An (issuer, epoch) record exists, in the sense the contract itself uses
(`epochRecords[issuer][epoch].timestamp != 0`). -/
def recordPresent (st : RegState) (i e : Nat) : Prop :=
  (st.epochRecords i e).timestamp ≠ 0

/- ## PolicyRegistry (Solidity embedded in submit_epoch.ts)

Policy hashes are `Nat`; `policies` is a total map with the zero struct as
default (`createdAt = 0` means unregistered), `activePolicy = 0` at
deployment (`bytes32(0)`). -/

structure Policy where
  policyHash : Nat
  version : Nat
  minCollateralRatio : Nat
  maxCollateralRatio : Nat
  minSupplyCoverage : Nat
  epochDeadlineSeconds : Nat
  isActive : Bool
  createdAt : Nat
deriving DecidableEq, Repr

def Policy.zero : Policy :=
  ⟨0, 0, 0, 0, 0, 0, false, 0⟩

structure PolState where
  policies : Nat → Policy
  policyVersions : List Nat
  activePolicy : Nat
  governance : Nat

inductive PolError
  | Unauthorized
  | PolicyExists
  | PolicyNotFound
  | InvalidRatio
  | ArithmeticUnderflow
deriving DecidableEq, Repr

def polInit (governance : Nat) : PolState :=
  ⟨fun _ => Policy.zero, [], 0, governance⟩

/-- `registerPolicy` (onlyGovernance).  `khash` models
`keccak256(abi.encode(version, minC, maxC, minS, deadline))`.
The ratio floor/ceiling constants are `1e18` and `10e18`. -/
def registerPolicy (khash : Nat → Nat → Nat → Nat → Nat → Nat)
    (st : PolState) (caller version minC maxC minS deadline now : Nat) :
    Except PolError (PolState × Nat) :=
  if caller ≠ st.governance then .error .Unauthorized
  else if minC < 10 ^ 18 then .error .InvalidRatio
  else if maxC > 10 * 10 ^ 18 then .error .InvalidRatio
  else if maxC < minC then .error .InvalidRatio
  else if minS < 10 ^ 18 then .error .InvalidRatio
  else
    let policyHash := khash version minC maxC minS deadline
    if (st.policies policyHash).createdAt ≠ 0 then .error .PolicyExists
    else
      .ok ({ st with
              policies := fun h =>
                if h = policyHash then
                  ⟨policyHash, version, minC, maxC, minS, deadline, false, now⟩
                else st.policies h,
              policyVersions := st.policyVersions ++ [policyHash] },
           policyHash)

/-- `activatePolicy` (onlyGovernance): deactivates the previously active
record when one exists, then activates the new one. -/
def activatePolicy (st : PolState) (caller policyHash : Nat) :
    Except PolError PolState :=
  if caller ≠ st.governance then .error .Unauthorized
  else if (st.policies policyHash).createdAt = 0 then .error .PolicyNotFound
  else
    let st1 :=
      if st.activePolicy ≠ 0 then
        { st with
            policies := fun h =>
              if h = st.activePolicy then { st.policies h with isActive := false }
              else st.policies h }
      else st
    .ok { st1 with
            policies := fun h =>
              if h = policyHash then { st1.policies h with isActive := true }
              else st1.policies h,
            activePolicy := policyHash }

/-- `isValidPolicy(policyHash)`.  The expression
`policy.version >= active.version - 1` uses checked uint256 subtraction,
which reverts when `active.version = 0`; that revert is the `.error` case. -/
def isValidPolicy (st : PolState) (policyHash : Nat) : Except PolError Bool :=
  let policy := st.policies policyHash
  if policy.createdAt = 0 then .ok false
  else if policyHash = st.activePolicy then .ok true
  else
    let active := st.policies st.activePolicy
    if active.version = 0 then .error .ArithmeticUnderflow
    else .ok (decide (policy.version ≥ active.version - 1))

/-- Concrete hash for counterexample runs: injective enough on the two
policies used (distinct versions give distinct hashes, offset so that no
registered hash is `0`). -/
def khashEx (version _minC _maxC _minS _deadline : Nat) : Nat :=
  version + 1000

/-- Register a version-5 and a version-6 policy, activate version 5, then
query `isValidPolicy` on the version-6 hash; also report the active hash
and both stored versions. -/
def polChainC3 : Except PolError (Except PolError Bool × Nat × Nat × Nat) := do
  let (s1, h5) ← registerPolicy khashEx (polInit 9) 9 5
                    (15 * 10 ^ 17) (2 * 10 ^ 18) (10 ^ 18) 3600 111
  let (s2, h6) ← registerPolicy khashEx s1 9 6
                    (16 * 10 ^ 17) (2 * 10 ^ 18) (10 ^ 18) 3600 222
  let s3 ← activatePolicy s2 9 h5
  pure (isValidPolicy s3 h6, s3.activePolicy,
        (s3.policies h6).version, (s3.policies h5).version)

/- ## EpochManager (src/contracts/EpochManager.sol) -/

structure EpochTimer where
  startTime : Nat
  endTime : Nat
  finalized : Bool
  totalSubmissions : Nat
  totalSlashed : Nat
deriving DecidableEq, Repr

structure EMState where
  currentEpoch : Nat
  epochDuration : Nat
  gracePeriod : Nat
  epochs : Nat → EpochTimer
  missedEpochs : Nat → Nat
  slashingScore : Nat → Nat
  integrityRegistry : Nat
  governance : Nat

inductive EMEvent
  | EpochStarted (epoch startTime endTime : Nat)
  | EpochFinalized (epoch totalSubmissions : Nat)
  | MissedEpoch (issuer epoch : Nat)
  | SlashingApplied (issuer score : Nat)
deriving DecidableEq, Repr

inductive EMError
  | Unauthorized
  | InvalidDuration
deriving DecidableEq, Repr

/-- `_startEpoch()`: increments the counter and opens a fresh epoch. -/
def startEpoch (st : EMState) (now : Nat) : EMState × List EMEvent :=
  let ce := st.currentEpoch + 1
  ({ st with
      currentEpoch := ce,
      epochs := fun e =>
        if e = ce then ⟨now, now + st.epochDuration, false, 0, 0⟩ else st.epochs e },
   [EMEvent.EpochStarted ce now (now + st.epochDuration)])

/-- Constructor: requires `duration >= 1 hours` and `grace >= 5 minutes`,
then starts the first epoch. -/
def emDeploy (governance duration grace now : Nat) : Option (EMState × List EMEvent) :=
  if duration < 3600 then none
  else if grace < 300 then none
  else some (startEpoch ⟨0, duration, grace, fun _ => ⟨0, 0, false, 0, 0⟩,
                          fun _ => 0, fun _ => 0, 0, governance⟩ now)

/-- `advanceEpoch()`: `require(block.timestamp > endTime + gracePeriod)`,
`require(!finalized)`, then finalize and start the next epoch. -/
def advanceEpoch (st : EMState) (now : Nat) : Except String (EMState × List EMEvent) :=
  let stc := st.epochs st.currentEpoch
  if stc.endTime + st.gracePeriod < now then
    if stc.finalized then .error "Already finalized"
    else
      let st1 := { st with
                    epochs := fun e =>
                      if e = st.currentEpoch then { stc with finalized := true }
                      else st.epochs e }
      let (st2, evs2) := startEpoch st1 now
      .ok (st2, EMEvent.EpochFinalized st.currentEpoch stc.totalSubmissions :: evs2)
  else .error "Current epoch still active"

/-- `recordSubmission(issuer)` (onlyRegistry): bump the submission counter
and reset the issuer's consecutive-miss streak. -/
def recordSubmission (caller : Nat) (st : EMState) (issuer : Nat) :
    Except EMError (EMState × List EMEvent) :=
  if caller ≠ st.integrityRegistry then .error .Unauthorized
  else
    .ok ({ st with
            epochs := fun e =>
              if e = st.currentEpoch then
                { st.epochs e with totalSubmissions := (st.epochs e).totalSubmissions + 1 }
              else st.epochs e,
            missedEpochs := fun a => if a = issuer then 0 else st.missedEpochs a },
         [])

/-- `_applySlashing(issuer)`: progressive penalty from the (already
incremented) consecutive-miss counter, capped at 100. -/
def applySlashing (st : EMState) (issuer : Nat) : EMState × List EMEvent :=
  let missed := st.missedEpochs issuer
  let score := st.slashingScore issuer
  let penalty := if missed = 1 then 5 else if missed ≤ 3 then 10 else 20
  let score' := if score + penalty > 100 then 100 else score + penalty
  ({ st with slashingScore := fun a => if a = issuer then score' else st.slashingScore a },
   [EMEvent.SlashingApplied issuer score'])

/-- `recordMissedEpoch(issuer)` (onlyRegistry): increment the miss streak
and the epoch's slashed counter, then apply slashing. -/
def recordMissedEpoch (caller : Nat) (st : EMState) (issuer : Nat) :
    Except EMError (EMState × List EMEvent) :=
  if caller ≠ st.integrityRegistry then .error .Unauthorized
  else
    let st1 := { st with
                  missedEpochs := fun a =>
                    if a = issuer then st.missedEpochs issuer + 1 else st.missedEpochs a,
                  epochs := fun e =>
                    if e = st.currentEpoch then
                      { st.epochs e with totalSlashed := (st.epochs e).totalSlashed + 1 }
                    else st.epochs e }
    let (st2, evs) := applySlashing st1 issuer
    .ok (st2, EMEvent.MissedEpoch issuer st.currentEpoch :: evs)

/-- `setEpochDuration` (onlyGovernance). -/
def setEpochDuration (caller : Nat) (st : EMState) (newDuration : Nat) :
    Except EMError EMState :=
  if caller ≠ st.governance then .error .Unauthorized
  else if newDuration < 3600 then .error .InvalidDuration
  else .ok { st with epochDuration := newDuration }

/-- `setIntegrityRegistry` (onlyGovernance). -/
def setIntegrityRegistry (caller : Nat) (st : EMState) (registry : Nat) :
    Except EMError EMState :=
  if caller ≠ st.governance then .error .Unauthorized
  else if registry = 0 then .error .Unauthorized
  else .ok { st with integrityRegistry := registry }

/-- Any successful state-changing operation of the epoch/slashing machine. -/
inductive EMStep : EMState → EMState → Prop
  | advance (st : EMState) (now : Nat) (st' : EMState) (evs : List EMEvent)
      (h : advanceEpoch st now = .ok (st', evs)) : EMStep st st'
  | recordSub (caller : Nat) (st : EMState) (issuer : Nat) (st' : EMState)
      (evs : List EMEvent)
      (h : recordSubmission caller st issuer = .ok (st', evs)) : EMStep st st'
  | recordMiss (caller : Nat) (st : EMState) (issuer : Nat) (st' : EMState)
      (evs : List EMEvent)
      (h : recordMissedEpoch caller st issuer = .ok (st', evs)) : EMStep st st'
  | setDuration (caller : Nat) (st : EMState) (d : Nat) (st' : EMState)
      (h : setEpochDuration caller st d = .ok st') : EMStep st st'
  | setRegistry (caller : Nat) (st : EMState) (r : Nat) (st' : EMState)
      (h : setIntegrityRegistry caller st r = .ok st') : EMStep st st'

/-- One `recordMissedEpoch` call made by the registry, keeping the state. -/
def missOnce (st : EMState) (issuer : Nat) : Except EMError EMState :=
  (recordMissedEpoch st.integrityRegistry st issuer).map Prod.fst

/-- Concrete manager state for boundary scenarios: epoch 1 opened at time 0
with duration 3600 and grace 300. -/
def emStEx : EMState :=
  ⟨1, 3600, 300,
   fun e => if e = 1 then ⟨0, 3600, false, 0, 0⟩ else ⟨0, 0, false, 0, 0⟩,
   fun _ => 0, fun _ => 0, 7, 9⟩

/- ## Circom circuits (src/zk/circuits/risk_bounds.circom)

Signals are field elements of the BN254 scalar field, modelled as integers;
within the value bounds hypothesised by the theorems no operation wraps the
modulus, so the integer computation coincides with the field computation.
A circuit is a function from its inputs to `Option` of its outputs: `none`
when some `===` constraint (or an internal `Num2Bits` decomposition) is
unsatisfiable, `some` of the outputs otherwise.  Poseidon instances are
abstract function parameters. -/

/-- The BN254 scalar-field modulus used by circom. -/
def fieldP : Int :=
  21888242871839275222246405745257275088548364400416034343698204186575808495617

/-- circomlib `LessThan(n)`: decomposes `in0 + 2^n - in1` (a field element,
hence reduced mod `fieldP`) with `Num2Bits(n+1)` — unsatisfiable when that
value needs more than `n+1` bits — and returns `1 - bit n`. -/
def lessThanGadget (n : Nat) (a b : Int) : Option Int :=
  let v := (a + 2 ^ n - b) % fieldP
  if v < 2 ^ (n + 1) then some (1 - v / 2 ^ n) else none

/-- circomlib `GreaterEqThan(n)`: `LessThan(n)` on `(in1, in0 + 1)`. -/
def greaterEqThanGadget (n : Nat) (a b : Int) : Option Int :=
  lessThanGadget n b (a + 1)

/-- circomlib `GreaterThan(n)`: `LessThan(n)` on `(in1, in0)`. -/
def greaterThanGadget (n : Nat) (a b : Int) : Option Int :=
  lessThanGadget n b a

/-- One Merkle level of the `Solvency` template: the left child is
`Mux1(cur, path, s)` and the right child is `s*(cur - path) + path`,
exactly the two linear signal expressions of the source. -/
def merkleFoldCirc (h2 : Int → Int → Int) : Int → List (Int × Int) → Int
  | cur, [] => cur
  | cur, (p, s) :: rest =>
      merkleFoldCirc h2 (h2 ((p - cur) * s + cur) (s * (cur - p) + p)) rest

structure SolvencyPub where
  collateral_root : Int
  liabilities_root : Int
  policy_hash : Int
  epoch : Int
  min_collateral_ratio : Int
deriving DecidableEq, Repr

structure SolvencyWit where
  total_collateral : Int
  total_liabilities : Int
  collateral_path : List Int
  collateral_indices : List Int
  liabilities_path : List Int
  liabilities_indices : List Int
deriving DecidableEq, Repr

/-- The recomputed collateral root of the `Solvency` template. -/
def solvencyCRoot (h1 : Int → Int) (h2 : Int → Int → Int) (w : SolvencyWit) : Int :=
  merkleFoldCirc h2 (h1 w.total_collateral) (w.collateral_path.zip w.collateral_indices)

/-- The recomputed liabilities root of the `Solvency` template. -/
def solvencyLRoot (h1 : Int → Int) (h2 : Int → Int → Int) (w : SolvencyWit) : Int :=
  merkleFoldCirc h2 (h1 w.total_liabilities) (w.liabilities_path.zip w.liabilities_indices)

/-- The `Solvency(TREE_DEPTH)` template: recompute both roots and assert
(`===`) equality with the public roots; compare
`total_collateral * 1e18` with `total_liabilities * min_collateral_ratio`
via `GreaterEqThan(252)`; bind policy data through a Poseidon call whose
output is multiplied by zero; output `valid = gte.out * policy_check`. -/
def SolvencyCirc (h1 : Int → Int) (h2 : Int → Int → Int)
    (h3 : Int → Int → Int → Int) (pub : SolvencyPub) (w : SolvencyWit) : Option Int :=
  if solvencyCRoot h1 h2 w ≠ pub.collateral_root then none
  else if solvencyLRoot h1 h2 w ≠ pub.liabilities_root then none
  else
    match greaterEqThanGadget 252 (w.total_collateral * 10 ^ 18)
            (w.total_liabilities * pub.min_collateral_ratio) with
    | none => none
    | some g =>
        some (g * (h3 pub.policy_hash pub.epoch pub.min_collateral_ratio * 0 + 1))

structure EpochPub where
  epoch : Int
  policy_hash : Int
  issuer_id : Int
  solvency_valid : Int
  supply_valid : Int
  risk_valid : Int
  previous_epoch_hash : Int
deriving DecidableEq, Repr

structure EpochWit where
  solvency_proof_hash : Int
  supply_proof_hash : Int
  risk_proof_hash : Int
  timestamp : Int
deriving DecidableEq, Repr

/-- The `Epoch()` template.  The only `===` constraints are the three
booleanity checks `x*(x-1) === 0`; `all_valid`, the `GreaterThan(64)`
output on `epoch`, and the proof-aggregate binding are multiplied into the
`valid` output but never themselves constrained to equal 1. -/
def EpochCirc (h5 : Int → Int → Int → Int → Int → Int)
    (h3 : Int → Int → Int → Int) (pub : EpochPub) (w : EpochWit) :
    Option (Int × Int) :=
  if pub.solvency_valid * (pub.solvency_valid - 1) ≠ 0 then none
  else if pub.supply_valid * (pub.supply_valid - 1) ≠ 0 then none
  else if pub.risk_valid * (pub.risk_valid - 1) ≠ 0 then none
  else
    let all_valid := pub.solvency_valid * pub.supply_valid * pub.risk_valid
    match greaterThanGadget 64 pub.epoch 0 with
    | none => none
    | some ep =>
        let ehash := h5 pub.epoch pub.policy_hash pub.issuer_id
                        pub.previous_epoch_hash w.timestamp
        let agg := h3 w.solvency_proof_hash w.supply_proof_hash w.risk_proof_hash
        some (all_valid * ep * (agg * 0 + 1), ehash)

/-- Concrete 5-ary hash for counterexample evaluation. -/
def hz5 (a b c d e : Int) : Int := a + 2 * b + 3 * c + 4 * d + 5 * e

/-- Concrete 3-ary hash for counterexample evaluation. -/
def hz3 (a b c : Int) : Int := a + 2 * b + 3 * c

/-- Concrete 1-ary hash for counterexample evaluation. -/
def hz1 (a : Int) : Int := a + 1

/-- Concrete 2-ary hash for counterexample evaluation. -/
def hz2 (a b : Int) : Int := 2 * a + 3 * b + 1

/-- `Epoch()` public inputs with `solvency_valid = 0` and the other two
validity signals 1. -/
def epochPubSolvencyZero : EpochPub := ⟨1, 10, 11, 0, 1, 1, 12⟩

/-- `Epoch()` public inputs with all three validity signals 1 but
`epoch = 0`. -/
def epochPubEpochZero : EpochPub := ⟨0, 10, 11, 1, 1, 1, 12⟩

def epochWitEx : EpochWit := ⟨21, 22, 23, 99⟩

/- ## Merkle tree builder (TypeScript, src/issuer/submit/submit_epoch.ts)

Leaf values and hashes are `Nat`; `h1`/`h2` stand for the one- and
two-argument Poseidon calls.  A JavaScript crash (reading an out-of-range
array slot and hashing `undefined`) is modelled as `none`. -/

/-- One bottom-up level: hash adjacent pairs.  An odd-length layer makes
the source read `prevLayer[i + 1]` past the end and hash `undefined`. -/
def pairUp (h2 : Nat → Nat → Nat) : List Nat → Option (List Nat)
  | [] => some []
  | [_] => none
  | a :: b :: rest => (pairUp h2 rest).map (fun l => h2 a b :: l)

/-- `layers[0..d]` of `buildTree`: `layers[k+1]` pairs up `layers[k]`. -/
def buildLayers (h2 : Nat → Nat → Nat) (layer : List Nat) : Nat → Option (List (List Nat))
  | 0 => some [layer]
  | d + 1 =>
      match pairUp h2 layer with
      | none => none
      | some nxt => (buildLayers h2 nxt d).map (fun ls => layer :: ls)

structure MerkleTreeT where
  root : Nat
  leaves : List Nat
  depth : Nat
  layers : List (List Nat)
deriving DecidableEq, Repr

/-- `buildTree(values, depth)`: pad on the right with `0n` while shorter
than `2^depth` (no length check in the source), hash each leaf, build the
layers bottom-up, and take `layers[depth][0]` as root. -/
def buildTree (h1 : Nat → Nat) (h2 : Nat → Nat → Nat)
    (values : List Nat) (depth : Nat) : Option MerkleTreeT :=
  match buildLayers h2
          ((values ++ List.replicate (2 ^ depth - values.length) 0).map h1) depth with
  | none => none
  | some ls =>
      match (ls.getD depth []).head? with
      | none => none
      | some r =>
          some ⟨r, values ++ List.replicate (2 ^ depth - values.length) 0, depth, ls⟩

structure MerkleProofT where
  root : Nat
  leaf : Nat
  path : List Nat
  indices : List Nat
deriving DecidableEq, Repr

/-- The proof loop of `getProof`, one layer per level: record the sibling
hash and the parity bit, then move to `idx / 2` in the next layer. -/
def getProofAux : List (List Nat) → Nat → Option (List Nat × List Nat)
  | [], _ => some ([], [])
  | layer :: rest, idx =>
      let sibIdx := if idx % 2 = 0 then idx + 1 else idx - 1
      match layer[sibIdx]? with
      | none => none
      | some sib =>
          match getProofAux rest (idx / 2) with
          | none => none
          | some (path, inds) => some (sib :: path, idx % 2 :: inds)

/-- `getProof(tree, index)`: throws when `index >= tree.leaves.length`,
otherwise walks `tree.layers[0..depth-1]`. -/
def getProof (t : MerkleTreeT) (index : Nat) : Option MerkleProofT :=
  if t.leaves.length ≤ index then none
  else
    match t.leaves[index]?, getProofAux (t.layers.take t.depth) index with
    | some leaf, some (path, inds) => some ⟨t.root, leaf, path, inds⟩
    | _, _ => none

/-- The fold of `verifyProof`: step `i` pairs `path[i]` with the running
hash on the side selected by `indices[i] === 0` (a missing index entry
compares unequal to 0, like `undefined` in the source). -/
def verifyAux (h2 : Nat → Nat → Nat) : Nat → List Nat → List Nat → Nat
  | h, [], _ => h
  | h, p :: ps, inds =>
      verifyAux h2 (if inds.headD 1 = 0 then h2 h p else h2 p h) ps inds.tail

/-- `verifyProof(proof)`: refold from the hashed leaf and compare with the
claimed root. -/
def verifyProof (h1 : Nat → Nat) (h2 : Nat → Nat → Nat) (pf : MerkleProofT) : Bool :=
  verifyAux h2 (h1 pf.leaf) pf.path pf.indices == pf.root

/-- Concrete leaf hash for counterexample evaluation. -/
def hEx1 (v : Nat) : Nat := v + 1

/-- Concrete pair hash for counterexample evaluation (injective on the
small values involved). -/
def hEx2 (a b : Nat) : Nat := (a + b) * (a + b + 1) / 2 + b + 1

/- ## Concrete instances used by witnesses and counterexamples -/

/-- Policy-registry state with a version-5 policy (hash 1005, active) and a
version-6 policy (hash 1006, registered). -/
def polStW : PolState :=
  ⟨fun h =>
      if h = 1005 then ⟨1005, 5, 15 * 10 ^ 17, 2 * 10 ^ 18, 10 ^ 18, 3600, true, 111⟩
      else if h = 1006 then ⟨1006, 6, 16 * 10 ^ 17, 2 * 10 ^ 18, 10 ^ 18, 3600, false, 222⟩
      else Policy.zero,
   [1005, 1006], 1005, 9⟩

/-- Registry state with issuer 1 registered and no submissions yet. -/
def stC4 : RegState :=
  ⟨fun _ _ => EpochRecord.zero, fun _ => 0, fun a => a == 1⟩

/-- External verifier that rejects every proof. -/
def vFalseC4 : List Nat → List Nat → Bool := fun _ _ => false

/-- External verifier that accepts every proof. -/
def vTrueC4 : List Nat → List Nat → Bool := fun _ _ => true

/-- Concrete stand-in for keccak256 over proof bytes. -/
def kcC4 : List Nat → Nat := List.length

/-- `Epoch()` public inputs with all three validity signals 1 and
`epoch = 1`. -/
def epochPubAllOne : EpochPub := ⟨1, 10, 11, 1, 1, 1, 12⟩

/-- Solvency instance at the exact boundary: totals 1500/1000 with
`min_collateral_ratio = 1.5e18`, empty Merkle paths, public roots matching
the recomputed ones. -/
def solPubEq : SolvencyPub := ⟨1501, 1001, 5, 1, 15 * 10 ^ 17⟩

def solWitEq : SolvencyWit := ⟨1500, 1000, [], [], [], []⟩

/-- One collateral unit below the boundary (roots recomputed for 1499). -/
def solPubBelow : SolvencyPub := ⟨1500, 1001, 5, 1, 15 * 10 ^ 17⟩

def solWitBelow : SolvencyWit := ⟨1499, 1000, [], [], [], []⟩

/-- Public roots that do not match the recomputed ones. -/
def solPubBad : SolvencyPub := ⟨999, 1001, 5, 1, 15 * 10 ^ 17⟩

/- ## Comparator gadget lemmas -/

theorem lessThanGadget_eq (n : Nat) (a b : Int) (hP : 2 ^ (n + 1) ≤ fieldP)
    (ha0 : 0 ≤ a) (ha : a < 2 ^ n) (hb0 : 0 ≤ b) (hb : b ≤ 2 ^ n) :
    lessThanGadget n a b = some (if a < b then 1 else 0) := by
  unfold lessThanGadget
  have hv0 : (0 : Int) ≤ a + 2 ^ n - b := by omega
  have hvlt : a + 2 ^ n - b < 2 ^ (n + 1) := by
    have : (2 : Int) ^ (n + 1) = 2 ^ n + 2 ^ n := by ring
    omega
  have hmod : (a + 2 ^ n - b) % fieldP = a + 2 ^ n - b :=
    Int.emod_emod_of_dvd _ dvd_rfl ▸ Int.emod_eq_of_lt hv0 (lt_of_lt_of_le hvlt hP)
  rw [hmod, if_pos hvlt]
  rcases lt_or_le a b with hab | hab
  · have : (a + 2 ^ n - b) / 2 ^ n = 0 := Int.ediv_eq_zero_of_lt hv0 (by omega)
    rw [if_pos hab, this]
    norm_num
  · have h1 : a + 2 ^ n - b = (a - b) + 1 * 2 ^ n := by ring
    have h2 : (a + 2 ^ n - b) / 2 ^ n = (a - b) / 2 ^ n + 1 := by
      rw [h1, Int.add_mul_ediv_right _ _ (by positivity : (2 : Int) ^ n ≠ 0)]
    have h3 : (a - b) / 2 ^ n = 0 := Int.ediv_eq_zero_of_lt (by omega) (by omega)
    rw [if_neg (not_lt.mpr hab), h2, h3]
    norm_num

theorem greaterEqThanGadget_eq (n : Nat) (a b : Int) (hP : 2 ^ (n + 1) ≤ fieldP)
    (ha0 : 0 ≤ a) (ha : a < 2 ^ n) (hb0 : 0 ≤ b) (hb : b < 2 ^ n) :
    greaterEqThanGadget n a b = some (if b ≤ a then 1 else 0) := by
  unfold greaterEqThanGadget
  rw [lessThanGadget_eq n b (a + 1) hP hb0 hb (by omega) (by omega)]
  congr 1
  by_cases h : b ≤ a
  · rw [if_pos (by omega), if_pos h]
  · rw [if_neg (by omega), if_neg h]

theorem greaterThanGadget_eq (n : Nat) (a : Int) (hP : 2 ^ (n + 1) ≤ fieldP)
    (ha0 : 0 ≤ a) (ha : a < 2 ^ n) :
    greaterThanGadget n a 0 = some (if 0 < a then 1 else 0) := by
  unfold greaterThanGadget
  rw [lessThanGadget_eq n 0 a hP le_rfl (by positivity) ha0 (by omega)]

theorem pow253_le_fieldP : (2 : Int) ^ 253 ≤ fieldP := by
  norm_num [fieldP]

theorem pow65_le_fieldP : (2 : Int) ^ 65 ≤ fieldP := by
  norm_num [fieldP]

/- ## C3: the policy grace window -/

/-- C3 counterexample.  Through governance calls, register a version-5 and
a version-6 policy and activate the version-5 one (hash `khashEx 5 _ _ _ _
= 1005`); `isValidPolicy` then accepts the version-6 hash even though it is
neither the active policy nor exactly one version behind it (6 ≠ 5 − 1),
refuting the claimed exact characterisation. -/
theorem C3_counterexample :
    polChainC3 = .ok (.ok true, 1005, 6, 5) ∧
    (1006 : Nat) ≠ 1005 ∧ (6 : Nat) ≠ 5 - 1 := by
  refine ⟨rfl, by decide, by decide⟩

/-- C3 (amended): when the active policy's version is at least 1,
`isValidPolicy hash` returns true exactly when `hash` identifies a
registered policy that is the active policy or whose version is at least
the active version minus one (newer and equal-version registered policies
are accepted too, not only the one exactly one version behind); and when
the active version is exactly 1 the check never underflows or reverts. -/
theorem C3_theorem (st : PolState) (h : Nat)
    (hv : 1 ≤ (st.policies st.activePolicy).version) :
    (isValidPolicy st h = .ok true ↔
      (st.policies h).createdAt ≠ 0 ∧
        (h = st.activePolicy ∨
          (st.policies st.activePolicy).version ≤ (st.policies h).version + 1)) ∧
    ((st.policies st.activePolicy).version = 1 →
      ∀ e : PolError, isValidPolicy st h ≠ .error e) := by
  unfold isValidPolicy
  constructor
  · by_cases hc : (st.policies h).createdAt = 0
    · simp [hc]
    · rw [if_neg hc]
      by_cases hact : h = st.activePolicy
      · subst hact
        simp [hc]
      · rw [if_neg hact, if_neg (by omega)]
        simp only [Except.ok.injEq, decide_eq_true_eq]
        constructor
        · intro hge
          exact ⟨hc, Or.inr (by omega)⟩
        · rintro ⟨-, hor⟩
          rcases hor with hor | hor
          · exact absurd hor hact
          · omega
  · intro h1 e
    by_cases hc : (st.policies h).createdAt = 0
    · simp [hc]
    · rw [if_neg hc]
      by_cases hact : h = st.activePolicy
      · subst hact
        simp [hc]
      · rw [if_neg hact, if_neg (by omega)]
        simp

/-- C3 witness: the amended characterisation evaluated on the concrete
two-policy state at hash 1006. -/
theorem C3_witness :
    1 ≤ (polStW.policies polStW.activePolicy).version ∧
    ((isValidPolicy polStW 1006 = .ok true ↔
        (polStW.policies 1006).createdAt ≠ 0 ∧
          (1006 = polStW.activePolicy ∨
            (polStW.policies polStW.activePolicy).version ≤
              (polStW.policies 1006).version + 1)) ∧
      ((polStW.policies polStW.activePolicy).version = 1 →
        ∀ e : PolError, isValidPolicy polStW 1006 ≠ .error e)) :=
  ⟨by decide, C3_theorem polStW 1006 (by decide)⟩

/- ## C8: epoch advancement boundary -/

/-- C8 counterexample.  With duration 3600 and grace 300 (epoch start 0),
a call to `advanceEpoch` at exactly `endTime + grace = 3900` — which is
not "before `endTime + grace`" — still fails with the epoch-still-active
error, because the source requires `block.timestamp > endTime + grace`
strictly. -/
theorem C8_counterexample :
    (emStEx.epochs emStEx.currentEpoch).endTime + emStEx.gracePeriod = 3900 ∧
    advanceEpoch emStEx 3900 = .error "Current epoch still active" :=
  ⟨rfl, rfl⟩

/-- C8 (amended): `advanceEpoch` fails with the epoch-still-active error
whenever `now ≤ endTime + grace` (so also at exactly `endTime + grace`),
and strictly after that instant it finalizes the current epoch, emits the
finalization record and opens epoch `counter + 1` with a fresh active
state; with duration 3600 and grace 300 a call at start+3601 fails and a
call at start+3901 succeeds. -/
theorem C8_theorem (st : EMState) (now : Nat)
    (hf : (st.epochs st.currentEpoch).finalized = false) :
    (now ≤ (st.epochs st.currentEpoch).endTime + st.gracePeriod →
      advanceEpoch st now = .error "Current epoch still active") ∧
    ((st.epochs st.currentEpoch).endTime + st.gracePeriod < now →
      (advanceEpoch st now).map (fun r =>
          (r.1.currentEpoch, r.1.epochs (st.currentEpoch + 1),
           (r.1.epochs st.currentEpoch).finalized, r.2))
        = .ok (st.currentEpoch + 1,
               ⟨now, now + st.epochDuration, false, 0, 0⟩, true,
               [EMEvent.EpochFinalized st.currentEpoch
                  (st.epochs st.currentEpoch).totalSubmissions,
                EMEvent.EpochStarted (st.currentEpoch + 1) now
                  (now + st.epochDuration)])) := by
  constructor
  · intro hle
    unfold advanceEpoch
    rw [if_neg (by omega)]
  · intro hlt
    unfold advanceEpoch startEpoch
    rw [if_pos hlt, if_neg (by simp [hf])]
    simp only [Except.map]
    have hne : ¬ st.currentEpoch = st.currentEpoch + 1 := by omega
    simp [hne]

/-- C8 witness: the amended statement on the concrete timer state at
start+3601 (fails) and start+3901 (succeeds, opening epoch 2). -/
theorem C8_witness :
    (emStEx.epochs emStEx.currentEpoch).finalized = false ∧
    advanceEpoch emStEx 3601 = .error "Current epoch still active" ∧
    (advanceEpoch emStEx 3901).map (fun r =>
        (r.1.currentEpoch, r.1.epochs (emStEx.currentEpoch + 1),
         (r.1.epochs emStEx.currentEpoch).finalized, r.2))
      = .ok (2, ⟨3901, 7501, false, 0, 0⟩, true,
             [EMEvent.EpochFinalized 1 0, EMEvent.EpochStarted 2 3901 7501]) :=
  ⟨rfl, (C8_theorem emStEx 3601 rfl).1 (by decide),
   by simpa using (C8_theorem emStEx 3901 rfl).2 (by decide)⟩

/- ## C9: issuer registration has no permission check -/

/-- C9 counterexample.  Caller 42 holds no governance or permission
capability (the registry has none at all for `registerIssuer`), yet the
call succeeds and enlarges the registered-issuer set, refuting the claim
that registration fails for non-privileged callers. -/
theorem C9_counterexample :
    RegInit.isRegisteredIssuer 42 = false ∧
    (registerIssuer RegInit 42 7).1.isRegisteredIssuer 42 = true ∧
    (registerIssuer RegInit 42 7).2 = [RegEvent.IssuerRegistered 42 7] :=
  ⟨rfl, by decide, rfl⟩

/-- C9 (amended): `registerIssuer` is permissionless self-registration —
for every state and every caller it succeeds, marks exactly the caller
registered, leaves every other issuer flag and all records untouched, and
emits the registration event (policy registration/activation, by contrast,
are governance-gated elsewhere). -/
theorem C9_theorem (st : RegState) (sender now : Nat) :
    (registerIssuer st sender now).1.isRegisteredIssuer sender = true ∧
    (∀ a, a ≠ sender →
      (registerIssuer st sender now).1.isRegisteredIssuer a = st.isRegisteredIssuer a) ∧
    (registerIssuer st sender now).1.latestEpoch = st.latestEpoch ∧
    (registerIssuer st sender now).1.epochRecords = st.epochRecords ∧
    (registerIssuer st sender now).2 = [RegEvent.IssuerRegistered sender now] := by
  refine ⟨by simp [registerIssuer], fun a ha => by simp [registerIssuer, ha], rfl, rfl, rfl⟩

/-- C9 witness: the amended statement at the empty state with caller 42. -/
theorem C9_witness :
    (registerIssuer RegInit 42 7).1.isRegisteredIssuer 42 = true ∧
    (registerIssuer RegInit 42 7).1.isRegisteredIssuer 43 = RegInit.isRegisteredIssuer 43 :=
  ⟨(C9_theorem RegInit 42 7).1, (C9_theorem RegInit 42 7).2.1 43 (by decide)⟩

/- ## C4: behaviour on VerificationFailed -/

/-- C4.  At a failing verification (registered issuer 1, first epoch,
verifier returns false): the frame executes
`emit ProofRejected(issuer, epoch, "Verification failed")` and then
reverts with `ProofVerificationFailed` (first conjunct), but at the
transaction level the revert rolls the log back, so the state is unchanged
and NO event is durably recorded (second conjunct) — the claimed "records
a public rejection event, then surfaces the failure" cannot both hold in
one reverting call.  Resubmitting the same epoch afterwards with a passing
verifier is accepted (third conjunct): no partial state persisted. -/
theorem C4_code_bug :
    submitProof vFalseC4 kcC4 stC4 1 1 77 [9] [3] 100
      = .error (.ProofVerificationFailed,
                [RegEvent.ProofRejected 1 1 "Verification failed"]) ∧
    submitProofTx vFalseC4 kcC4 stC4 1 1 77 [9] [3] 100
      = (stC4, [], some .ProofVerificationFailed) ∧
    (submitProof vTrueC4 kcC4 stC4 1 1 77 [9] [3] 100).map
        (fun r => (r.1.latestEpoch 1, (r.1.epochRecords 1 1).verified, r.2))
      = .ok (1, true, [RegEvent.IntegrityProven 1 1 77 1 100]) :=
  ⟨rfl, rfl, rfl⟩

/- ## C6: the Epoch aggregation circuit -/

/-- C6 counterexample.  The `Epoch()` template never constrains
`all_valid` or `epoch_positive.out` to 1 — they are only multiplied into
the `valid` output — so a satisfying assignment exists with
`solvency_valid = 0` (first pair of conjuncts), refuting "no satisfying
assignment exists unless all three sub-proofs passed", and one exists with
`epoch = 0` (second pair), refuting "asserts epoch > 0". -/
theorem C6_counterexample :
    (EpochCirc hz5 hz3 epochPubSolvencyZero epochWitEx).isSome = true ∧
    epochPubSolvencyZero.solvency_valid * epochPubSolvencyZero.supply_valid *
        epochPubSolvencyZero.risk_valid ≠ 1 ∧
    (EpochCirc hz5 hz3 epochPubEpochZero epochWitEx).isSome = true ∧
    epochPubEpochZero.epoch = 0 := by
  refine ⟨rfl, by decide, rfl, rfl⟩

/-- C6 (amended): the circuit asserts booleanity of each of the three
validity signals (a non-boolean signal is unsatisfiable — second
conjunct), and, for boolean signals and a 64-bit epoch, it is satisfiable
with output `valid = solvency·supply·risk·(epoch > 0 ? 1 : 0)` — so `valid
= 1` exactly when all three sub-proofs passed and `epoch > 0`, but neither
the product being 1 nor `epoch > 0` is itself asserted — and with output
`epochHash = hash(epoch, policyHash, issuerId, previousEpochHash,
timestamp)`, the arguments in exactly that order. -/
theorem C6_theorem (h5 : Int → Int → Int → Int → Int → Int)
    (h3 : Int → Int → Int → Int) (pub : EpochPub) (w : EpochWit) :
    (pub.solvency_valid * (pub.solvency_valid - 1) = 0 →
     pub.supply_valid * (pub.supply_valid - 1) = 0 →
     pub.risk_valid * (pub.risk_valid - 1) = 0 →
     0 ≤ pub.epoch → pub.epoch < 2 ^ 64 →
     EpochCirc h5 h3 pub w
       = some (pub.solvency_valid * pub.supply_valid * pub.risk_valid *
                 (if 0 < pub.epoch then 1 else 0),
               h5 pub.epoch pub.policy_hash pub.issuer_id
                 pub.previous_epoch_hash w.timestamp)) ∧
    (pub.solvency_valid * (pub.solvency_valid - 1) ≠ 0 ∨
     pub.supply_valid * (pub.supply_valid - 1) ≠ 0 ∨
     pub.risk_valid * (pub.risk_valid - 1) ≠ 0 →
     EpochCirc h5 h3 pub w = none) := by
  constructor
  · intro hs hv hr he0 he64
    unfold EpochCirc
    rw [if_neg (not_not_intro hs), if_neg (not_not_intro hv),
        if_neg (not_not_intro hr),
        greaterThanGadget_eq 64 pub.epoch pow65_le_fieldP he0 he64]
    ring_nf
  · intro hor
    unfold EpochCirc
    rcases hor with hs | hv | hr
    · rw [if_pos hs]
    · by_cases hs' : pub.solvency_valid * (pub.solvency_valid - 1) = 0
      · rw [if_neg (not_not_intro hs'), if_pos hv]
      · rw [if_pos hs']
    · by_cases hs' : pub.solvency_valid * (pub.solvency_valid - 1) = 0
      · by_cases hv' : pub.supply_valid * (pub.supply_valid - 1) = 0
        · rw [if_neg (not_not_intro hs'), if_neg (not_not_intro hv'), if_pos hr]
        · rw [if_neg (not_not_intro hs'), if_pos hv']
      · rw [if_pos hs']

/-- C6 witness: the amended statement with all three signals 1 and
`epoch = 1`, yielding `valid = 1` and the chained hash. -/
theorem C6_witness :
    EpochCirc hz5 hz3 epochPubAllOne epochWitEx = some (1, hz5 1 10 11 12 99) := by
  have h := (C6_theorem hz5 hz3 epochPubAllOne epochWitEx).1
      (by decide) (by decide) (by decide) (by decide) (by decide)
  simpa using h

/- ## C7: buildTree padding and the missing length check -/

/-- C7 counterexample.  `buildTree` contains no `DepthExceeded` (or any
length) check: on four values with depth 1 (`4 > 2^1`) it succeeds and
returns a tree instead of failing. -/
theorem C7_counterexample :
    (buildTree hEx1 hEx2 [1, 2, 3, 4] 1).isSome = true ∧
    2 ^ 1 < ([1, 2, 3, 4] : List Nat).length := by
  refine ⟨rfl, by decide⟩

/- ## C5: the Solvency circuit -/

/-- C5.  For any Poseidon instances and any instance with in-range values
(products below `2^252`, the `GreaterEqThan(252)` range): when both
recomputed roots match the public roots, the circuit is satisfiable and
its validity output is 1 exactly when
`totalCollateral * 10^18 >= totalLiabilities * minRatio` (inclusive at
equality, 0 one unit of collateral below the boundary); and whenever
either recomputed root differs from its public root, no satisfying
witness exists at all. -/
theorem C5_theorem (h1 : Int → Int) (h2 : Int → Int → Int)
    (h3 : Int → Int → Int → Int) (pub : SolvencyPub) (w : SolvencyWit) :
    (0 ≤ w.total_collateral * 10 ^ 18 →
     w.total_collateral * 10 ^ 18 < 2 ^ 252 →
     0 ≤ w.total_liabilities * pub.min_collateral_ratio →
     w.total_liabilities * pub.min_collateral_ratio < 2 ^ 252 →
     solvencyCRoot h1 h2 w = pub.collateral_root →
     solvencyLRoot h1 h2 w = pub.liabilities_root →
     SolvencyCirc h1 h2 h3 pub w =
       some (if w.total_liabilities * pub.min_collateral_ratio ≤
               w.total_collateral * 10 ^ 18 then 1 else 0)) ∧
    (solvencyCRoot h1 h2 w ≠ pub.collateral_root ∨
     solvencyLRoot h1 h2 w ≠ pub.liabilities_root →
     SolvencyCirc h1 h2 h3 pub w = none) := by
  constructor
  · intro hc0 hc hl0 hl hcr hlr
    unfold SolvencyCirc
    rw [if_neg (not_not_intro hcr), if_neg (not_not_intro hlr),
        greaterEqThanGadget_eq 252 _ _ pow253_le_fieldP hc0 hc hl0 hl]
    simp
  · intro hor
    unfold SolvencyCirc
    rcases hor with h | h
    · rw [if_pos h]
    · by_cases hcc : solvencyCRoot h1 h2 w = pub.collateral_root
      · rw [if_neg (not_not_intro hcc), if_pos h]
      · rw [if_pos hcc]

set_option maxRecDepth 8000 in
/-- C5 witness: totals 1500/1000 at `minRatio = 1.5e18` sit exactly on the
boundary and validate; lowering collateral to 1499 yields 0; a mismatched
public collateral root leaves no satisfying witness. -/
theorem C5_witness :
    SolvencyCirc hz1 hz2 hz3 solPubEq solWitEq = some 1 ∧
    SolvencyCirc hz1 hz2 hz3 solPubBelow solWitBelow = some 0 ∧
    SolvencyCirc hz1 hz2 hz3 solPubBad solWitEq = none :=
  ⟨((C5_theorem hz1 hz2 hz3 solPubEq solWitEq).1 (by norm_num [solWitEq])
      (by norm_num [solWitEq]) (by norm_num [solWitEq, solPubEq])
      (by norm_num [solWitEq, solPubEq]) (by decide) (by decide)).trans
      (by norm_num [solWitEq, solPubEq]),
   ((C5_theorem hz1 hz2 hz3 solPubBelow solWitBelow).1 (by norm_num [solWitBelow])
      (by norm_num [solWitBelow]) (by norm_num [solWitBelow, solPubBelow])
      (by norm_num [solWitBelow, solPubBelow]) (by decide) (by decide)).trans
      (by norm_num [solWitBelow, solPubBelow]),
   (C5_theorem hz1 hz2 hz3 solPubBad solWitEq).2 (Or.inl (by decide))⟩

/- ## C2: progressive slashing -/

theorem missOnce_proj (st : EMState) (issuer : Nat) :
    ∃ s', missOnce st issuer = .ok s' ∧
      s'.missedEpochs issuer = st.missedEpochs issuer + 1 ∧
      s'.slashingScore issuer =
        (if st.slashingScore issuer +
              (if st.missedEpochs issuer + 1 = 1 then 5
               else if st.missedEpochs issuer + 1 ≤ 3 then 10 else 20) > 100
         then 100
         else st.slashingScore issuer +
              (if st.missedEpochs issuer + 1 = 1 then 5
               else if st.missedEpochs issuer + 1 ≤ 3 then 10 else 20)) ∧
      s'.integrityRegistry = st.integrityRegistry := by
  unfold missOnce recordMissedEpoch applySlashing
  rw [if_neg (not_not_intro rfl)]
  refine ⟨_, rfl, ?_, ?_, ?_⟩
  · simp
  · simp
  · rfl

/-- C2.  (1) Every registry-invoked `recordMissedEpoch` raises the
issuer's score by the schedule keyed on the incremented consecutive-miss
counter — +5 at 1, +10 at 2 or 3, +20 at 4 and beyond — saturating at
100.  (2) From a fresh issuer (no streak, score 0), four consecutive
misses accrue cumulative scores 5, 15, 25, 45.  (3) No successful
operation of the epoch/slashing machine lowers any issuer's score below
its current value (scores within the documented 0–100 band stay there). -/
theorem C2_theorem :
    (∀ (st : EMState) (issuer : Nat),
      (missOnce st issuer).map (fun s => s.slashingScore issuer)
        = .ok (min 100 (st.slashingScore issuer +
            (if st.missedEpochs issuer + 1 = 1 then 5
             else if st.missedEpochs issuer + 1 ≤ 3 then 10 else 20)))) ∧
    (∀ (st : EMState) (issuer : Nat),
      st.missedEpochs issuer = 0 → st.slashingScore issuer = 0 →
      ((missOnce st issuer).map (fun s => s.slashingScore issuer) = .ok 5) ∧
      ((missOnce st issuer >>= fun s => missOnce s issuer).map
          (fun s => s.slashingScore issuer) = .ok 15) ∧
      ((missOnce st issuer >>= fun s => missOnce s issuer >>= fun s =>
          missOnce s issuer).map (fun s => s.slashingScore issuer) = .ok 25) ∧
      ((missOnce st issuer >>= fun s => missOnce s issuer >>= fun s =>
          missOnce s issuer >>= fun s => missOnce s issuer).map
          (fun s => s.slashingScore issuer) = .ok 45)) ∧
    (∀ (st st' : EMState), EMStep st st' → ∀ issuer : Nat,
      st.slashingScore issuer ≤ 100 →
      st.slashingScore issuer ≤ st'.slashingScore issuer ∧
        st'.slashingScore issuer ≤ 100) := by
  refine ⟨?_, ?_, ?_⟩
  · intro st issuer
    obtain ⟨s1, e1, m1, sc1, r1⟩ := missOnce_proj st issuer
    rw [e1]
    simp only [Except.map, Except.ok.injEq]
    rw [sc1]
    split_ifs <;> omega
  · intro st issuer h0 hs0
    obtain ⟨s1, e1, m1, sc1, r1⟩ := missOnce_proj st issuer
    rw [h0] at m1
    rw [h0, hs0] at sc1
    norm_num at m1 sc1
    obtain ⟨s2, e2, m2, sc2, r2⟩ := missOnce_proj s1 issuer
    rw [m1] at m2
    rw [m1, sc1] at sc2
    norm_num at m2 sc2
    obtain ⟨s3, e3, m3, sc3, r3⟩ := missOnce_proj s2 issuer
    rw [m2] at m3
    rw [m2, sc2] at sc3
    norm_num at m3 sc3
    obtain ⟨s4, e4, m4, sc4, r4⟩ := missOnce_proj s3 issuer
    rw [m3] at m4
    rw [m3, sc3] at sc4
    norm_num at m4 sc4
    refine ⟨?_, ?_, ?_, ?_⟩ <;>
      simp [e1, e2, e3, e4, sc1, sc2, sc3, sc4, Except.map, Bind.bind, Except.bind]
  · intro st st' hstep issuer hle
    cases hstep with
    | advance st now st' evs h =>
        simp only [advanceEpoch, startEpoch] at h
        split_ifs at h with h1 h2
        simp only [Except.ok.injEq, Prod.mk.injEq] at h
        rw [← h.1]
        exact ⟨le_rfl, hle⟩
    | recordSub caller st issuer' st' evs h =>
        simp only [recordSubmission] at h
        split_ifs at h with h1
        simp only [Except.ok.injEq, Prod.mk.injEq] at h
        rw [← h.1]
        exact ⟨le_rfl, hle⟩
    | recordMiss caller st issuer' st' evs h =>
        unfold recordMissedEpoch applySlashing at h
        by_cases h1 : caller ≠ st.integrityRegistry
        · rw [if_pos h1] at h
          exact absurd h (by simp)
        · rw [if_neg h1] at h
          simp only [Except.ok.injEq, Prod.mk.injEq] at h
          rw [← h.1]
          by_cases ha : issuer = issuer'
          · subst ha
            simp only [if_pos rfl]
            constructor <;> (split_ifs <;> omega)
          · simp only [if_neg ha]
            exact ⟨le_rfl, hle⟩
    | setDuration caller st d st' h =>
        simp only [setEpochDuration] at h
        split_ifs at h with h1 h2
        simp only [Except.ok.injEq] at h
        rw [← h]
        exact ⟨le_rfl, hle⟩
    | setRegistry caller st r st' h =>
        simp only [setIntegrityRegistry] at h
        split_ifs at h with h1 h2
        simp only [Except.ok.injEq] at h
        rw [← h]
        exact ⟨le_rfl, hle⟩

/-- C2 witness: the schedule evaluated on the concrete manager state for
issuer 3 (fresh): the four-miss chain yields 5, 15, 25, 45, and one
registry-invoked miss from the fresh state scores `min 100 (0 + 5)`. -/
theorem C2_witness :
    ((missOnce emStEx 3).map (fun s => s.slashingScore 3)
       = .ok (min 100 (emStEx.slashingScore 3 +
           (if emStEx.missedEpochs 3 + 1 = 1 then 5
            else if emStEx.missedEpochs 3 + 1 ≤ 3 then 10 else 20)))) ∧
    ((missOnce emStEx 3).map (fun s => s.slashingScore 3) = .ok 5) ∧
    ((missOnce emStEx 3 >>= fun s => missOnce s 3 >>= fun s =>
        missOnce s 3 >>= fun s => missOnce s 3).map
        (fun s => s.slashingScore 3) = .ok 45) :=
  ⟨C2_theorem.1 emStEx 3,
   (C2_theorem.2.1 emStEx 3 rfl rfl).1,
   (C2_theorem.2.1 emStEx 3 rfl rfl).2.2.2⟩

/- ## C1: epoch sequencing invariant -/

theorem submitProof_ok_inv
    {verify : List Nat → List Nat → Bool} {keccak : List Nat → Nat}
    {st : RegState} {sender epoch merkleRoot : Nat}
    {proof publicInputs : List Nat} {now : Nat}
    {st' : RegState} {evs : List RegEvent}
    (h : submitProof verify keccak st sender epoch merkleRoot proof publicInputs now
          = .ok (st', evs)) :
    st.isRegisteredIssuer sender = true ∧
    epoch = st.latestEpoch sender + 1 ∧
    (st.epochRecords sender epoch).timestamp = 0 ∧
    st' = { st with
            epochRecords := fun i e =>
              if i = sender ∧ e = epoch then
                ⟨epoch, merkleRoot, keccak proof, sender, now, true⟩
              else st.epochRecords i e,
            latestEpoch := fun i => if i = sender then epoch else st.latestEpoch i } := by
  unfold submitProof at h
  split_ifs at h with h1 h2 h3 h4
  simp only [Except.ok.injEq, Prod.mk.injEq] at h
  refine ⟨?_, not_not.mp h2, not_not.mp h3, h.1.symm⟩
  revert h1
  cases st.isRegisteredIssuer sender <;> simp

theorem reg_invariant (st : RegState) (hr : RegReachable st) :
    ∀ i e, recordPresent st i e ↔ 1 ≤ e ∧ e ≤ st.latestEpoch i := by
  induction hr with
  | init =>
      intro i e
      simp only [recordPresent, RegInit, EpochRecord.zero]
      omega
  | step hreach hstep ih =>
      cases hstep with
      | register st sender now =>
          intro i e
          exact ih i e
      | submit verify keccak st sender epoch merkleRoot proof publicInputs now
          st' evs hnow hok =>
          obtain ⟨hreg, he, habs, hst'⟩ := submitProof_ok_inv hok
          subst hst'
          intro i e
          simp only [recordPresent] at ih ⊢
          by_cases hi : i = sender
          · subst hi
            by_cases hee : e = epoch
            · subst hee
              simp
              omega
            · simp [hee]
              have hih := ih i e
              omega
          · have hcond : ¬ (i = sender ∧ e = epoch) := fun hc => hi hc.1
            simp [hcond, hi]
            have hih := ih i e
            omega

/-- C1.  (1) For a registered issuer, a submission with any epoch other
than `latestEpoch + 1` fails with `InvalidEpoch` and no event, whatever
the verifier outcome; (2) in particular epoch `k + 2` while the issuer's
latest accepted epoch is still at most `k` always fails with
`InvalidEpoch`; (3) a successful submission is only possible at
`latestEpoch + 1`; (4) in every reachable registry state the accepted
records of issuer `i` are exactly the epochs `1 .. latestEpoch i` —
strictly increasing, gapless, starting at 1; (5) an existing record is
never modified by any further step. -/
theorem C1_theorem :
    (∀ (verify : List Nat → List Nat → Bool) (keccak : List Nat → Nat)
       (st : RegState) (sender epoch merkleRoot : Nat)
       (proof publicInputs : List Nat) (now : Nat),
       st.isRegisteredIssuer sender = true →
       epoch ≠ st.latestEpoch sender + 1 →
       submitProof verify keccak st sender epoch merkleRoot proof publicInputs now
         = .error (.InvalidEpoch, [])) ∧
    (∀ (verify : List Nat → List Nat → Bool) (keccak : List Nat → Nat)
       (st : RegState) (sender k merkleRoot : Nat)
       (proof publicInputs : List Nat) (now : Nat),
       st.isRegisteredIssuer sender = true →
       st.latestEpoch sender ≤ k →
       submitProof verify keccak st sender (k + 2) merkleRoot proof publicInputs now
         = .error (.InvalidEpoch, [])) ∧
    (∀ (verify : List Nat → List Nat → Bool) (keccak : List Nat → Nat)
       (st : RegState) (sender epoch merkleRoot : Nat)
       (proof publicInputs : List Nat) (now : Nat)
       (st' : RegState) (evs : List RegEvent),
       submitProof verify keccak st sender epoch merkleRoot proof publicInputs now
         = .ok (st', evs) →
       epoch = st.latestEpoch sender + 1) ∧
    (∀ st : RegState, RegReachable st →
       ∀ i e, recordPresent st i e ↔ 1 ≤ e ∧ e ≤ st.latestEpoch i) ∧
    (∀ st st' : RegState, RegStep st st' →
       ∀ i e, recordPresent st i e → st'.epochRecords i e = st.epochRecords i e) := by
  refine ⟨?_, ?_, ?_, reg_invariant, ?_⟩
  · intro verify keccak st sender epoch merkleRoot proof publicInputs now hreg hne
    unfold submitProof
    rw [if_neg (by simp [hreg]), if_pos hne]
  · intro verify keccak st sender k merkleRoot proof publicInputs now hreg hk
    unfold submitProof
    rw [if_neg (by simp [hreg]), if_pos (by omega)]
  · intro verify keccak st sender epoch merkleRoot proof publicInputs now st' evs hok
    exact (submitProof_ok_inv hok).2.1
  · intro st st' hstep i e hpres
    cases hstep with
    | register st sender now => rfl
    | submit verify keccak st sender epoch merkleRoot proof publicInputs now
        st' evs hnow hok =>
        obtain ⟨hreg, he, habs, hst'⟩ := submitProof_ok_inv hok
        subst hst'
        simp only [recordPresent] at hpres
        have hie : ¬ (i = sender ∧ e = epoch) := by
          rintro ⟨hi, hee⟩
          subst hi
          subst hee
          exact hpres habs
        simp only [if_neg hie]

/-- C1 witness: on the concrete registered state (issuer 1, latest epoch
0), submitting epoch 3 fails with `InvalidEpoch` even though the verifier
accepts; and at the deployment state the record set of issuer 1 matches
the epochs `1 .. latestEpoch 1` (both empty). -/
theorem C1_witness :
    submitProof vTrueC4 kcC4 stC4 1 3 77 [9] [3] 100 = .error (.InvalidEpoch, []) ∧
    (recordPresent RegInit 1 1 ↔ 1 ≤ 1 ∧ 1 ≤ RegInit.latestEpoch 1) :=
  ⟨C1_theorem.1 vTrueC4 kcC4 stC4 1 3 77 [9] [3] 100 rfl (by decide),
   C1_theorem.2.2.2.1 RegInit RegReachable.init 1 1⟩

/- ## C7/C10: Merkle builder lemmas -/

theorem pairUp_spec (h2 : Nat → Nat → Nat) :
    ∀ (m : Nat) (L : List Nat), L.length = 2 * m →
    ∃ L', pairUp h2 L = some L' ∧ L'.length = m ∧
      ∀ k, k < m → L'.getD k 0 = h2 (L.getD (2 * k) 0) (L.getD (2 * k + 1) 0) := by
  intro m
  induction m with
  | zero =>
      intro L hL
      have hnil : L = [] := List.length_eq_zero.mp (by omega)
      subst hnil
      exact ⟨[], rfl, rfl, by omega⟩
  | succ m ih =>
      intro L hL
      rcases L with _ | ⟨a, L⟩
      · simp at hL
      rcases L with _ | ⟨b, rest⟩
      · simp at hL
        omega
      have hr : rest.length = 2 * m := by
        simp only [List.length_cons] at hL
        omega
      obtain ⟨L', hp, hlen, hget⟩ := ih rest hr
      refine ⟨h2 a b :: L', ?_, by simp [hlen], ?_⟩
      · simp [pairUp, hp]
      · intro k hk
        cases k with
        | zero => simp
        | succ k =>
            have e1 : 2 * (k + 1) = 2 * k + 1 + 1 := by omega
            rw [List.getD_cons_succ, e1, List.getD_cons_succ, List.getD_cons_succ,
                List.getD_cons_succ, List.getD_cons_succ]
            exact hget k (by omega)

theorem layersRound (h2 : Nat → Nat → Nat) :
    ∀ (d : Nat) (L : List Nat), L.length = 2 ^ d →
    ∃ ls r, buildLayers h2 L d = some ls ∧
      (ls.getD d []).head? = some r ∧
      ∀ i, i < 2 ^ d →
        ∃ path inds, getProofAux (ls.take d) i = some (path, inds) ∧
          verifyAux h2 (L.getD i 0) path inds = r := by
  intro d
  induction d with
  | zero =>
      intro L hL
      rcases L with _ | ⟨x, L⟩
      · simp at hL
      rcases L with _ | ⟨y, L⟩
      · refine ⟨[[x]], x, rfl, rfl, ?_⟩
        intro i hi
        have hz : i = 0 := by
          simp only [pow_zero] at hi
          omega
        subst hz
        exact ⟨[], [], rfl, rfl⟩
      · simp only [List.length_cons, pow_zero] at hL
        omega
  | succ d ih =>
      intro L hL
      have hL2 : L.length = 2 * 2 ^ d := by
        rw [hL]
        ring
      obtain ⟨L', hp, hlen, hget⟩ := pairUp_spec h2 (2 ^ d) L hL2
      obtain ⟨ls', r, hbl', hroot', hproof'⟩ := ih L' hlen
      refine ⟨L :: ls', r, ?_, ?_, ?_⟩
      · simp [buildLayers, hp, hbl']
      · rw [List.getD_cons_succ]
        exact hroot'
      · intro i hi
        have hi2 : i < 2 * 2 ^ d := by
          rw [← hL2, hL]
          exact hi
        have hidiv : i / 2 < 2 ^ d := by omega
        obtain ⟨path, inds, haux, hver⟩ := hproof' (i / 2) hidiv
        have hsib : (if i % 2 = 0 then i + 1 else i - 1) < L.length := by
          rw [hL2]
          split_ifs <;> omega
        refine ⟨L.getD (if i % 2 = 0 then i + 1 else i - 1) 0 :: path,
                i % 2 :: inds, ?_, ?_⟩
        · rw [List.take_succ_cons]
          simp only [getProofAux]
          rw [List.getElem?_eq_getElem hsib, haux, List.getD_eq_getElem L 0 hsib]
        · simp only [verifyAux, List.headD_cons, List.tail_cons]
          rcases Nat.mod_two_eq_zero_or_one i with hpar | hpar
          · simp [hpar]
            have hnode := hget (i / 2) hidiv
            rw [show 2 * (i / 2) = i by omega] at hnode
            simp only [List.getD_eq_getElem?_getD] at hnode hver
            rw [← hnode]
            exact hver
          · simp [hpar]
            have hnode := hget (i / 2) hidiv
            rw [show 2 * (i / 2) = i - 1 by omega, show i - 1 + 1 = i by omega] at hnode
            simp only [List.getD_eq_getElem?_getD] at hnode hver
            rw [← hnode]
            exact hver

theorem buildTree_inv {h1 : Nat → Nat} {h2 : Nat → Nat → Nat}
    {values : List Nat} {depth : Nat} {t : MerkleTreeT}
    (h : buildTree h1 h2 values depth = some t) :
    t.leaves = values ++ List.replicate (2 ^ depth - values.length) 0 ∧
    t.depth = depth ∧
    buildLayers h2 (t.leaves.map h1) depth = some t.layers ∧
    (t.layers.getD depth []).head? = some t.root := by
  unfold buildTree at h
  split at h
  · exact absurd h (by simp)
  · next ls hb =>
      split at h
      · exact absurd h (by simp)
      · next r hr =>
          simp only [Option.some.injEq] at h
          subst h
          exact ⟨rfl, rfl, hb, hr⟩

/-- C7 (amended): `buildTree` pads `values` on the right with the zero
leaf to exactly `2^depth` whenever `len(values) ≤ 2^depth` and always
succeeds there; the root is a pure function of the padded leaf sequence
(any two calls producing the same padded leaves produce the same root).
There is no `DepthExceeded` failure: longer inputs are not rejected. -/
theorem C7_theorem (h1 : Nat → Nat) (h2 : Nat → Nat → Nat)
    (values : List Nat) (depth : Nat) (hlen : values.length ≤ 2 ^ depth) :
    ∃ t, buildTree h1 h2 values depth = some t ∧
      t.leaves = values ++ List.replicate (2 ^ depth - values.length) 0 ∧
      t.leaves.length = 2 ^ depth ∧
      (∀ values₂ t₂, buildTree h1 h2 values₂ depth = some t₂ →
        t₂.leaves = t.leaves → t₂.root = t.root) := by
  have hplen : (values ++ List.replicate (2 ^ depth - values.length) 0).length
      = 2 ^ depth := by
    simp only [List.length_append, List.length_replicate]
    omega
  have hmlen : ((values ++ List.replicate (2 ^ depth - values.length) 0).map h1).length
      = 2 ^ depth := by
    rw [List.length_map]
    exact hplen
  obtain ⟨ls, r, hbl, hroot, -⟩ := layersRound h2 depth _ hmlen
  refine ⟨⟨r, values ++ List.replicate (2 ^ depth - values.length) 0, depth, ls⟩,
          ?_, rfl, hplen, ?_⟩
  · unfold buildTree
    simp only [hbl, hroot]
  · intro values₂ t₂ hbt₂ hleq
    obtain ⟨hl₂, hd₂, hbl₂, hroot₂⟩ := buildTree_inv hbt₂
    rw [hleq] at hbl₂
    simp only at hbl₂
    rw [hbl] at hbl₂
    have hlayers : ls = t₂.layers := by
      exact Option.some.inj hbl₂
    rw [← hlayers] at hroot₂
    rw [hroot] at hroot₂
    exact (Option.some.inj hroot₂).symm

/-- C7 witness: a single value with depth 1 is padded with one zero leaf
to length 2 and builds successfully. -/
theorem C7_witness :
    ∃ t, buildTree hEx1 hEx2 [5] 1 = some t ∧
      t.leaves = [5] ++ List.replicate (2 ^ 1 - ([5] : List Nat).length) 0 ∧
      t.leaves.length = 2 ^ 1 ∧
      (∀ values₂ t₂, buildTree hEx1 hEx2 values₂ 1 = some t₂ →
        t₂.leaves = t.leaves → t₂.root = t.root) :=
  C7_theorem hEx1 hEx2 [5] 1 (by decide)

/- ## C10: inclusion-proof round trip -/

/-- C10 counterexample.  `buildTree` on `[1,2,3,4]` with depth 1 succeeds
(no `DepthExceeded` check) and yields a tree with 4 leaves, but the
inclusion proof for the valid index 2 (`2 < 4 = number of leaves`) does
not verify against the tree's root — refuting the claim for all trees
produced by `buildTree`. -/
theorem C10_counterexample :
    ((buildTree hEx1 hEx2 [1, 2, 3, 4] 1).bind fun t =>
        (getProof t 2).map (verifyProof hEx1 hEx2)) = some false ∧
    ((buildTree hEx1 hEx2 [1, 2, 3, 4] 1).map fun t => t.leaves.length)
      = some 4 := by
  refine ⟨by decide, by decide⟩

/-- C10 (amended): for every tree built from at most `2^depth` values —
so that the padded leaf list has length exactly `2^depth` — and every
index `i < 2^depth` (equivalently `i < number of leaves`), the inclusion
proof produced by `getProof` verifies against the tree's root. -/
theorem C10_theorem (h1 : Nat → Nat) (h2 : Nat → Nat → Nat)
    (values : List Nat) (depth : Nat) (hlen : values.length ≤ 2 ^ depth)
    (i : Nat) (hi : i < 2 ^ depth) :
    ∃ t pf, buildTree h1 h2 values depth = some t ∧ i < t.leaves.length ∧
      getProof t i = some pf ∧ verifyProof h1 h2 pf = true := by
  have hplen : (values ++ List.replicate (2 ^ depth - values.length) 0).length
      = 2 ^ depth := by
    simp only [List.length_append, List.length_replicate]
    omega
  have hmlen : ((values ++ List.replicate (2 ^ depth - values.length) 0).map h1).length
      = 2 ^ depth := by
    rw [List.length_map]
    exact hplen
  obtain ⟨ls, r, hbl, hroot, hproof⟩ := layersRound h2 depth _ hmlen
  obtain ⟨path, inds, haux, hver⟩ := hproof i hi
  have hi' : i < (values ++ List.replicate (2 ^ depth - values.length) 0).length := by
    rw [hplen]
    exact hi
  refine ⟨⟨r, values ++ List.replicate (2 ^ depth - values.length) 0, depth, ls⟩,
          ⟨r, (values ++ List.replicate (2 ^ depth - values.length) 0).getD i 0,
           path, inds⟩, ?_, ?_, ?_, ?_⟩
  · unfold buildTree
    simp only [hbl, hroot]
  · exact hi'
  · unfold getProof
    rw [if_neg (by simp only [hplen]; omega)]
    rw [List.getElem?_eq_getElem hi']
    simp only
    rw [haux, List.getD_eq_getElem _ 0 hi']
  · unfold verifyProof
    have hmap : ((values ++ List.replicate (2 ^ depth - values.length) 0).map h1).getD i 0
        = h1 ((values ++ List.replicate (2 ^ depth - values.length) 0).getD i 0) := by
      rw [List.getD_eq_getElem _ 0 (by rw [hmlen]; exact hi),
          List.getElem_map, List.getD_eq_getElem _ 0 hi']
    rw [hmap] at hver
    simp only
    rw [hver]
    exact beq_self_eq_true r

/-- C10 witness: the round trip evaluated on the padded single-leaf tree
of depth 1 at index 0. -/
theorem C10_witness :
    ∃ t pf, buildTree hEx1 hEx2 [5] 1 = some t ∧ 0 < t.leaves.length ∧
      getProof t 0 = some pf ∧ verifyProof hEx1 hEx2 pf = true :=
  C10_theorem hEx1 hEx2 [5] 1 (by decide) 0 (by decide)

end Mizan
